import Mathlib

/-!
Shallow embedding of the workflow core of `main_v3_7.py` (helper-bot):
identity/permission store, pending-task moderation, report ledger append,
and the announcement board with reactions. Python strings are modelled as
`List Char`; the JSON stores as Lean structures and lists; machine-level
concerns (file IO, the Telegram transport, Google Sheets mirroring) are
outside the embedded core, which is the pure state transformation each
handler performs.
-/

namespace HelperBot

/-- Python `str` values, modelled as lists of characters. -/
abbrev Str := List Char

/-- `s.lower()` (per-character lowercasing). -/
def pyLower (s : Str) : Str := s.map Char.toLower

/-- `s.lstrip("@")`: drop every leading `'@'`. -/
def lstripAt (s : Str) : Str := s.dropWhile (fun c => c = '@')

/-- One stored profile of `roles.json`. `role` is an `Option` because the
code always reads it through `info.get("role", "сотрудник")`;
`is_superadmin` mirrors `info.get("is_superadmin", False)`. -/
structure UserInfo where
  name : String
  role : Option String
  is_superadmin : Bool
  username : Str
deriving Repr, DecidableEq

/-- The `roles.json` mapping `user id → profile`, an association list
(Python dicts preserve insertion order). -/
abbrev RolesMap := List (String × UserInfo)

/-- `roles.get(uid)`: first binding of the key, if any. -/
def rolesGet (roles : RolesMap) (uid : String) : Option UserInfo :=
  (roles.find? (fun p => p.1 == uid)).map (fun p => p.2)

/-- A Telegram user as the handlers see it: `user.id`, `user.username`
(`None` modelled as the empty string) and `user.full_name`. -/
structure TgUser where
  id : Nat
  username : Str
  full_name : String
deriving Repr, DecidableEq

/-- `is_superadmin_by_roles(uid_str)`: the stored profile exists and its
`is_superadmin` flag is truthy. -/
def is_superadmin_by_roles (roles : RolesMap) (uid_str : String) : Bool :=
  match rolesGet roles uid_str with
  | some info => info.is_superadmin
  | none => false

/-- `is_superadmin_by_username(username)`. `superadmin_username` stands for
the module constant `SUPERADMIN_USERNAME`, which the load line already ran
`.lstrip("@")` on. An absent (`None`) or empty handle is falsy and returns
`False` before any comparison. -/
def is_superadmin_by_username (superadmin_username : Str) (username : Str) : Bool :=
  if username = [] then false
  else decide (lstripAt (pyLower username) = pyLower superadmin_username)

/-- `is_superadmin(user)`: flag authority OR handle authority. `str(user.id)`
never fails and is never falsy for a Telegram numeric id, so the
`uid and ...` guard reduces to the flag check itself. -/
def is_superadmin (roles : RolesMap) (superadmin_username : Str) (user : TgUser) : Bool :=
  is_superadmin_by_roles roles (toString user.id) ||
    is_superadmin_by_username superadmin_username user.username

/-- The `ROLE_LEVEL` dict; the final `0` is the `.get(name, 0)` default. -/
def ROLE_LEVEL (r : String) : Nat :=
  if r = "сотрудник" then 1
  else if r = "технолог" then 2
  else if r = "начальник" then 3
  else 0

/-- `has_role_permission(user_obj, required_role_name)`. -/
def has_role_permission (roles : RolesMap) (superadmin_username : Str)
    (user_obj : TgUser) (required_role_name : String) : Bool :=
  if is_superadmin roles superadmin_username user_obj then true
  else
    match rolesGet roles (toString user_obj.id) with
    | none => false
    | some info =>
        decide (ROLE_LEVEL (info.role.getD "сотрудник") ≥ ROLE_LEVEL required_role_name)

/-! ### Sample data used by witnesses -/

/-- Empty roles store. -/
def roles0 : RolesMap := []

/-- A user whose handle is `@Boss` and who has no stored profile. -/
def u_alpha : TgUser := ⟨7, "@Boss".toList, "Alpha"⟩

/-- A stored profile with role `сотрудник` and no flags. -/
def info_beta : UserInfo := ⟨"Beta", some "сотрудник", false, "beta".toList⟩

/-- Roles store holding only `info_beta` under id `"5"`. -/
def roles1 : RolesMap := [("5", info_beta)]

/-- The user owning `info_beta`. -/
def u_beta : TgUser := ⟨5, "beta".toList, "Beta"⟩

/-! ### C1: superadmin resolution -/

theorem pyLower_ne_nil {s : Str} (h : s ≠ []) : pyLower s ≠ [] := by
  intro hc
  exact h (List.map_eq_nil_iff.mp hc)

/-- C1: `is_superadmin` is true iff the stored profile carries the
superadmin flag, or the user's handle, lowercased and with leading `'@'`
stripped, equals the configured superadmin handle lowercased (the
configured handle being nonempty). Either authority alone suffices;
with neither, the user is not superadmin. -/
theorem is_superadmin_iff (roles : RolesMap) (sa : Str) (user : TgUser)
    (hsa : sa ≠ []) :
    is_superadmin roles sa user = true ↔
      ((∃ info, rolesGet roles (toString user.id) = some info ∧ info.is_superadmin = true) ∨
        lstripAt (pyLower user.username) = pyLower sa) := by
  unfold is_superadmin is_superadmin_by_roles is_superadmin_by_username
  rw [Bool.or_eq_true]
  constructor
  · rintro (h | h)
    · left
      cases hE : rolesGet roles (toString user.id) with
      | none => rw [hE] at h; exact absurd h (by simp)
      | some info => rw [hE] at h; exact ⟨info, rfl, h⟩
    · right
      by_cases hu : user.username = []
      · rw [if_pos hu] at h; exact absurd h (by simp)
      · rw [if_neg hu] at h; exact of_decide_eq_true h
  · rintro (⟨info, hE, hflag⟩ | h)
    · left; rw [hE]; exact hflag
    · right
      have hu : user.username ≠ [] := by
        intro hnil
        rw [hnil] at h
        simp only [pyLower, List.map_nil, lstripAt, List.dropWhile_nil] at h
        exact pyLower_ne_nil hsa h.symm
      rw [if_neg hu]
      exact decide_eq_true h

/-- Witness for C1 at a concrete input: no stored profile, handle `@Boss`
against configured handle `boss`. -/
theorem is_superadmin_iff_witness :
    ("boss".toList ≠ ([] : Str)) ∧
      (is_superadmin roles0 "boss".toList u_alpha = true ↔
        ((∃ info, rolesGet roles0 (toString u_alpha.id) = some info ∧
            info.is_superadmin = true) ∨
          lstripAt (pyLower u_alpha.username) = pyLower "boss".toList)) :=
  ⟨by decide, is_superadmin_iff roles0 "boss".toList u_alpha (by decide)⟩

/-! ### C2: role order denies higher roles -/

/-- C2: a non-superadmin whose stored profile has role `r1` is denied any
role `r2` strictly above `r1` in the order employee < technologist <
manager; a non-superadmin with no stored profile is denied as well. -/
theorem has_role_permission_denies_higher (roles : RolesMap) (sa : Str)
    (user : TgUser) (r1 r2 : String)
    (hA : is_superadmin roles sa user = false)
    (_h1 : r1 ∈ (["сотрудник", "технолог", "начальник"] : List String))
    (_h2 : r2 ∈ (["сотрудник", "технолог", "начальник"] : List String))
    (hlt : ROLE_LEVEL r1 < ROLE_LEVEL r2) :
    (∀ info, rolesGet roles (toString user.id) = some info →
        info.role = some r1 →
        has_role_permission roles sa user r2 = false) ∧
      (rolesGet roles (toString user.id) = none →
        has_role_permission roles sa user r2 = false) := by
  unfold has_role_permission
  rw [hA, if_neg (by simp)]
  constructor
  · intro info hE hrole
    rw [hE]
    show decide (ROLE_LEVEL (info.role.getD "сотрудник") ≥ ROLE_LEVEL r2) = false
    rw [hrole]
    exact decide_eq_false (Nat.not_le.mpr hlt)
  · intro hE
    rw [hE]

/-- Witness for C2: the stored `сотрудник` profile is denied `технолог`. -/
theorem has_role_permission_denies_higher_witness :
    has_role_permission roles1 "boss".toList u_beta "технолог" = false :=
  (has_role_permission_denies_higher roles1 "boss".toList u_beta
      "сотрудник" "технолог" (by decide) (by decide) (by decide) (by decide)).1
    info_beta (by decide) rfl

/-! ### C9: unknown required roles rank 0, every profile passes -/

/-- C9: a non-superadmin with any stored profile passes the permission
check for every required-role name outside the defined set, since an
unknown name maps to rank 0 and every rank is ≥ 0. -/
theorem has_role_permission_unknown_required (roles : RolesMap) (sa : Str)
    (user : TgUser) (required : String) (info : UserInfo)
    (hA : is_superadmin roles sa user = false)
    (hE : rolesGet roles (toString user.id) = some info)
    (hreq : required ∉ (["сотрудник", "технолог", "начальник"] : List String)) :
    has_role_permission roles sa user required = true := by
  unfold has_role_permission
  rw [hA, if_neg (by simp), hE]
  have h0 : ROLE_LEVEL required = 0 := by
    unfold ROLE_LEVEL
    rw [if_neg, if_neg, if_neg]
    · intro hc; exact hreq (by simp [hc])
    · intro hc; exact hreq (by simp [hc])
    · intro hc; exact hreq (by simp [hc])
  rw [h0]
  exact decide_eq_true (Nat.zero_le _)

/-- Witness for C9: required role `"admin"` is outside the set, yet the
stored `сотрудник` profile passes. -/
theorem has_role_permission_unknown_required_witness :
    has_role_permission roles1 "boss".toList u_beta "admin" = true :=
  has_role_permission_unknown_required roles1 "boss".toList u_beta "admin"
    info_beta (by decide) (by decide) (by decide)

/-! ### Pending-task moderation (`pending_action_cb`) -/

/-- One record of `pending_tasks.json`; `fromName` is the `"from"` key. -/
structure PendingEntry where
  name : String
  fromName : String
  user_id : Nat
  date : String
deriving Repr, DecidableEq

/-- One record of `board.json`; `reactions` is the emoji → reactor-id-list
dict, kept in insertion order. -/
structure Post where
  id : Nat
  text : String
  author : String
  date : String
  photo : Option String
  reactions : List (String × List String)
deriving Repr, DecidableEq

/-- The four shared document stores a moderation callback can touch. -/
structure BotState where
  pending : List PendingEntry
  tasks : List String
  board : List Post
  roles : RolesMap
deriving Repr, DecidableEq

/-- Python `list.pop(i)`: the removed element and the remaining list, or
`none` when `i` is not a valid position. -/
def listPop {α : Type} (l : List α) (i : Nat) : Option (α × List α) :=
  match l, i with
  | [], _ => none
  | x :: xs, 0 => some (x, xs)
  | x :: xs, Nat.succ j => (listPop xs j).map (fun r => (r.1, x :: r.2))

/-- `pending_action_cb` after callback-data parsing: `action = parts[1]`,
`idx = int(parts[2])`. Returns the updated stores and the reply text shown
to the moderator. The range guard `idx < 0 or idx >= len(items)` answers
"Неверный индекс." and leaves every store untouched; otherwise the entry
is popped, and the approve branch additionally appends its name to the
task list when not already present. -/
def pending_action_cb (action : String) (idx : Int) (st : BotState) :
    BotState × String :=
  if idx < 0 ∨ (st.pending.length : Int) ≤ idx then
    (st, "Неверный индекс.")
  else
    match listPop st.pending idx.toNat with
    | none => (st, "Неверный индекс.")
    | some (entry, rest) =>
      if action = "approve" then
        let tasks := if entry.name ∈ st.tasks then st.tasks else st.tasks ++ [entry.name]
        ({ st with pending := rest, tasks := tasks }, "Добавлено в список задач.")
      else
        ({ st with pending := rest }, "Отклонено.")

theorem listPop_eq_get_eraseIdx {α : Type} :
    ∀ (l : List α) (i : Nat) (h : i < l.length),
      listPop l i = some (l.get ⟨i, h⟩, l.eraseIdx i)
  | _ :: _, 0, _ => rfl
  | x :: xs, Nat.succ j, h => by
      have hj : j < xs.length := Nat.lt_of_succ_lt_succ h
      simp only [listPop, listPop_eq_get_eraseIdx xs j hj, Option.map_some]
      rfl

/-- Sample pending entries and states used by counterexamples/witnesses. -/
def entry0 : PendingEntry := ⟨"clean windows", "A", 1, "d1"⟩

/-- Second sample pending entry. -/
def entry1 : PendingEntry := ⟨"wash cups", "B", 2, "d2"⟩

/-- The queue as a reviewer viewed it: `entry0` at index 0, `entry1` at 1. -/
def stViewed : BotState := ⟨[entry0, entry1], ["old task"], [], []⟩

/-- The same queue after another moderation already removed `entry0`:
index 0 is now occupied by `entry1`, so a reviewer who viewed `stViewed`
and still presses the button for index 0 acts on a stale index. -/
def stShifted : BotState := ⟨[entry1], ["old task"], [], []⟩

/-! ### C3: stale vs out-of-range indices -/

/-- Counterexample to C3: the stale index 0 into the shifted queue (the
reviewer viewed `stViewed`, aiming at `entry0`; the queue is now
`stShifted`) is still in range, so the approve does NOT fail: it removes
`entry1`, changes the catalog, and reports success, not the refusal. -/
theorem pending_stale_index_counterexample :
    (pending_action_cb "approve" 0 stShifted).1.pending = [] ∧
      (pending_action_cb "approve" 0 stShifted).1.tasks ≠ stShifted.tasks ∧
      (pending_action_cb "approve" 0 stShifted).2 ≠ "Неверный индекс." ∧
      stShifted.pending ≠ stViewed.pending.eraseIdx 1 := by
  decide

/-- C3 (amended): an out-of-range index (`idx < 0` or `idx ≥` queue
length) fails with the user-visible refusal and leaves every store
unchanged; staleness of an in-range index is not detected. -/
theorem pending_out_of_range_unchanged (action : String) (idx : Int)
    (st : BotState) (h : idx < 0 ∨ (st.pending.length : Int) ≤ idx) :
    pending_action_cb action idx st = (st, "Неверный индекс.") := by
  unfold pending_action_cb
  rw [if_pos h]

/-- Witness for the amended C3 at the concrete index 5. -/
theorem pending_out_of_range_unchanged_witness :
    pending_action_cb "approve" 5 stShifted = (stShifted, "Неверный индекс.") :=
  pending_out_of_range_unchanged "approve" 5 stShifted (by decide)

/-! ### C4: approve removes one entry, catalog grows by 0 or 1 -/

theorem pending_action_cb_in_range (action : String) (st : BotState) (idx : Int)
    (h0 : 0 ≤ idx) (h1 : idx.toNat < st.pending.length) :
    pending_action_cb action idx st =
      (if action = "approve" then
        ({ st with
            pending := st.pending.eraseIdx idx.toNat,
            tasks :=
              if (st.pending.get ⟨idx.toNat, h1⟩).name ∈ st.tasks then st.tasks
              else st.tasks ++ [(st.pending.get ⟨idx.toNat, h1⟩).name] },
          "Добавлено в список задач.")
      else
        ({ st with pending := st.pending.eraseIdx idx.toNat }, "Отклонено.")) := by
  have hrange : ¬(idx < 0 ∨ (st.pending.length : Int) ≤ idx) := by
    push_neg
    refine ⟨h0, ?_⟩
    calc idx = (idx.toNat : Int) := (Int.toNat_of_nonneg h0).symm
      _ < (st.pending.length : Int) := by exact_mod_cast h1
  unfold pending_action_cb
  rw [if_neg hrange, listPop_eq_get_eraseIdx st.pending idx.toNat h1]

/-- C4: an in-range approve removes exactly the entry at `idx` (queue
length drops by one) and leaves the catalog unchanged when the entry's
name is already present, or appends exactly that name when it is not. -/
theorem pending_approve_spec (st : BotState) (idx : Int)
    (h0 : 0 ≤ idx) (h1 : idx.toNat < st.pending.length) :
    (pending_action_cb "approve" idx st).1.pending = st.pending.eraseIdx idx.toNat ∧
      (pending_action_cb "approve" idx st).1.pending.length + 1 = st.pending.length ∧
      ((st.pending.get ⟨idx.toNat, h1⟩).name ∈ st.tasks →
        (pending_action_cb "approve" idx st).1.tasks = st.tasks) ∧
      ((st.pending.get ⟨idx.toNat, h1⟩).name ∉ st.tasks →
        (pending_action_cb "approve" idx st).1.tasks =
            st.tasks ++ [(st.pending.get ⟨idx.toNat, h1⟩).name] ∧
          (pending_action_cb "approve" idx st).1.tasks.length = st.tasks.length + 1) := by
  rw [pending_action_cb_in_range "approve" st idx h0 h1, if_pos rfl]
  by_cases hmem : (st.pending.get ⟨idx.toNat, h1⟩).name ∈ st.tasks
  · rw [if_pos hmem]
    exact ⟨rfl, List.length_eraseIdx_add_one h1, fun _ => rfl, fun hn => absurd hmem hn⟩
  · rw [if_neg hmem]
    exact ⟨rfl, List.length_eraseIdx_add_one h1, fun hm => absurd hm hmem,
      fun _ => ⟨rfl, by simp⟩⟩

/-- Witness for C4 at index 0 of the two-entry queue: `entry0`'s name is
not yet in the catalog, so the catalog gains exactly that name. -/
theorem pending_approve_spec_witness :
    (pending_action_cb "approve" 0 stViewed).1.pending =
        stViewed.pending.eraseIdx (0 : Int).toNat ∧
      (pending_action_cb "approve" 0 stViewed).1.pending.length + 1 =
        stViewed.pending.length :=
  ⟨(pending_approve_spec stViewed 0 (by decide) (by decide)).1,
    (pending_approve_spec stViewed 0 (by decide) (by decide)).2.1⟩

/-! ### C10: reject's effect and the frame of both branches -/

/-- C10: an in-range reject removes exactly the entry at `idx` and changes
nothing else (catalog, board and roles keep their values); the approve
branch likewise leaves board and roles untouched. -/
theorem pending_reject_frame (st : BotState) (idx : Int)
    (h0 : 0 ≤ idx) (h1 : idx.toNat < st.pending.length) :
    (pending_action_cb "reject" idx st).1 =
        { st with pending := st.pending.eraseIdx idx.toNat } ∧
      (pending_action_cb "approve" idx st).1.board = st.board ∧
      (pending_action_cb "approve" idx st).1.roles = st.roles := by
  rw [pending_action_cb_in_range "reject" st idx h0 h1,
    pending_action_cb_in_range "approve" st idx h0 h1, if_pos rfl, if_neg (by decide)]
  refine ⟨rfl, ?_, ?_⟩ <;>
    · by_cases hmem : (st.pending.get ⟨idx.toNat, h1⟩).name ∈ st.tasks
      · rw [if_pos hmem]
      · rw [if_neg hmem]

/-- Witness for C10 at index 0 of the shifted queue. -/
theorem pending_reject_frame_witness :
    (pending_action_cb "reject" 0 stShifted).1 =
        { stShifted with pending := stShifted.pending.eraseIdx (0 : Int).toNat } ∧
      (pending_action_cb "approve" 0 stShifted).1.board = stShifted.board :=
  ⟨(pending_reject_frame stShifted 0 (by decide) (by decide)).1,
    (pending_reject_frame stShifted 0 (by decide) (by decide)).2.1⟩

/-! ### Report wizard: `report_count_received` and the CSV ledger -/

/-- Python `str.strip()`: whitespace removed from both ends. -/
def pyStrip (s : Str) : Str :=
  ((s.dropWhile Char.isWhitespace).reverse.dropWhile Char.isWhitespace).reverse

/-- Decimal value of a digit run. -/
def digitsVal (s : Str) : Nat :=
  s.foldl (fun a c => a * 10 + (c.toNat - '0'.toNat)) 0

/-- Python `int(text)` on already-stripped text: an optional sign followed
by a nonempty run of decimal digits; anything else raises `ValueError`,
modelled as `none`. (Underscore separators and non-ASCII digits, which
CPython also accepts, do not occur in this system's inputs.) -/
def pyInt? (s : Str) : Option Int :=
  match s with
  | '+' :: rest =>
      if rest ≠ [] ∧ rest.all Char.isDigit then some (Int.ofNat (digitsVal rest)) else none
  | '-' :: rest =>
      if rest ≠ [] ∧ rest.all Char.isDigit then some (-(Int.ofNat (digitsVal rest))) else none
  | _ => if s ≠ [] ∧ s.all Char.isDigit then some (Int.ofNat (digitsVal s)) else none

/-- The ephemeral `context.user_data["report"]` dict: both keys are read
with `.get` defaults (`"—"` for the task, `""` for the reviewer). -/
structure ReportDraft where
  task : Option String
  tech : Option String
deriving Repr, DecidableEq

/-- Outcome of one `report_count_received` step: stay in `REPORT_COUNT` on
malformed input, or end the conversation after recording. -/
inductive ReportOutcome where
  | repeatCount
  | ended
deriving Repr, DecidableEq

/-- One row of `reports.csv`, columns «Дата, Имя, Роль, Задача,
Количество, Технолог». -/
structure CsvRow where
  date : String
  name : String
  role : String
  task : String
  count : Int
  tech : String
deriving Repr, DecidableEq

/-- `append_csv_row(row)`: the ledger grows by exactly the one row at the
end. -/
def append_csv_row (ledger : List CsvRow) (row : CsvRow) : List CsvRow :=
  ledger ++ [row]

/-- `report_count_received`: parse the message text as an integer; on
failure re-prompt without touching the ledger; on success append the row
`[date_str, user_name, "сотрудник", task, cnt, tech]` and end. -/
def report_count_received (text : Str) (rpt : ReportDraft)
    (user_name date_str : String) (ledger : List CsvRow) :
    List CsvRow × ReportOutcome :=
  match pyInt? (pyStrip text) with
  | none => (ledger, ReportOutcome.repeatCount)
  | some cnt =>
      (append_csv_row ledger
        ⟨date_str, user_name, "сотрудник", rpt.task.getD "—", cnt, rpt.tech.getD ""⟩,
        ReportOutcome.ended)

/-! ### C5: the ledger accepts non-positive counts -/

/-- C5 (the code violates the `count ≥ 1` invariant): entering `"0"` or
`"-3"` at `EnterCount` parses successfully and appends a ledger row whose
count is `0`, respectively `-3` — both below the specified minimum 1. -/
theorem report_count_nonpositive_appended :
    report_count_received "0".toList ⟨some "t", some ""⟩ "A" "d" [] =
        ([⟨"d", "A", "сотрудник", "t", 0, ""⟩], ReportOutcome.ended) ∧
      report_count_received "-3".toList ⟨some "t", none⟩ "A" "d" [] =
        ([⟨"d", "A", "сотрудник", "t", -3, ""⟩], ReportOutcome.ended) ∧
      ¬((1 : Int) ≤ 0) ∧ ¬((1 : Int) ≤ -3) := by
  decide

/-! ### C6: the role column is a constant, not a snapshot -/

/-- A stored profile whose role is `технолог`. -/
def infoTech : UserInfo := ⟨"TechUser", some "технолог", false, "tech".toList⟩

/-- Roles store holding `infoTech` under id `"5"`. -/
def rolesTech : RolesMap := [("5", infoTech)]

/-- Counterexample to C6: the submitter's stored role is `технолог`, yet
the appended row's role column is the fixed default `"сотрудник"` — the
handler never reads the roles store at all. -/
theorem report_role_snapshot_counterexample :
    rolesGet rolesTech "5" = some infoTech ∧
      infoTech.role = some "технолог" ∧
      report_count_received "3".toList ⟨some "t", some ""⟩ "TechUser" "d" [] =
        ([⟨"d", "TechUser", "сотрудник", "t", 3, ""⟩], ReportOutcome.ended) ∧
      ("сотрудник" : String) ≠ "технолог" := by
  decide

/-- C6 (amended): every row the report wizard appends carries the constant
role string `"сотрудник"` in its role column, whatever the submitter's
stored role is. -/
theorem report_role_constant (text : Str) (rpt : ReportDraft)
    (user_name date_str : String) (ledger : List CsvRow) (cnt : Int)
    (h : pyInt? (pyStrip text) = some cnt) :
    report_count_received text rpt user_name date_str ledger =
      (ledger ++
          [⟨date_str, user_name, "сотрудник", rpt.task.getD "—", cnt, rpt.tech.getD ""⟩],
        ReportOutcome.ended) := by
  unfold report_count_received
  rw [h]
  rfl

/-- Witness for the amended C6 at the concrete count text `"3"`. -/
theorem report_role_constant_witness :
    report_count_received "3".toList ⟨some "t", none⟩ "B" "d" [] =
      ([⟨"d", "B", "сотрудник", "t", 3, ""⟩], ReportOutcome.ended) :=
  report_role_constant "3".toList ⟨some "t", none⟩ "B" "d" [] 3 (by decide)

/-! ### Board reactions (`react_cb`) -/

/-- The in-place toggle on one emoji's reactor list: `remove` (first
occurrence) when present, `append` when absent. -/
def toggleList (em_list : List String) (uid : String) : List String :=
  if uid ∈ em_list then em_list.erase uid else em_list ++ [uid]

/-- `post.setdefault("reactions", {})` followed by
`reactions.setdefault(em, [])` and the toggle: the first binding of `em`
is updated in place, or a fresh binding is appended at the end of the
dict. -/
def updateReactions (reactions : List (String × List String)) (em uid : String) :
    List (String × List String) :=
  match reactions with
  | [] => [(em, toggleList [] uid)]
  | (k, v) :: rest =>
      if k = em then (k, toggleList v uid) :: rest
      else (k, v) :: updateReactions rest em uid

/-- Reading an emoji's reactor list out of the dict (`.get(em, [])`). -/
def reactGet (reactions : List (String × List String)) (em : String) : List String :=
  match reactions with
  | [] => []
  | (k, v) :: rest => if k = em then v else reactGet rest em

/-- `react_cb` after callback parsing: find the first post with the given
id and toggle `uid` in its `em` reactor list; an unknown post id leaves
the board unchanged (the handler replies «Пост не найден» and returns
before saving). -/
def react_cb (board : List Post) (pid : Nat) (em uid : String) : List Post :=
  match board with
  | [] => []
  | p :: rest =>
      if p.id = pid then
        { p with reactions := updateReactions p.reactions em uid } :: rest
      else p :: react_cb rest pid em uid

/-- The reactor list of `(pid, em)` as `cmd_board` would count it: from
the first post with that id. -/
def reactorSet (board : List Post) (pid : Nat) (em : String) : List String :=
  match board with
  | [] => []
  | p :: rest => if p.id = pid then reactGet p.reactions em else reactorSet rest pid em

theorem reactGet_updateReactions (reactions : List (String × List String))
    (em uid : String) :
    reactGet (updateReactions reactions em uid) em =
      toggleList (reactGet reactions em) uid := by
  induction reactions with
  | nil => simp [updateReactions, reactGet]
  | cons kv rest ih =>
      obtain ⟨k, v⟩ := kv
      by_cases hk : k = em
      · simp [updateReactions, reactGet, hk]
      · simp [updateReactions, reactGet, hk, ih]

theorem reactorSet_react_cb (board : List Post) (pid : Nat) (em uid : String)
    (hp : ∃ p ∈ board, p.id = pid) :
    reactorSet (react_cb board pid em uid) pid em =
        toggleList (reactorSet board pid em) uid ∧
      reactorSet (react_cb (react_cb board pid em uid) pid em uid) pid em =
        toggleList (toggleList (reactorSet board pid em) uid) uid := by
  induction board with
  | nil => obtain ⟨p, hmem, _⟩ := hp; exact absurd hmem (List.not_mem_nil p)
  | cons p rest ih =>
      by_cases hid : p.id = pid
      · simp [react_cb, reactorSet, hid, reactGet_updateReactions]
      · have hp' : ∃ q ∈ rest, q.id = pid := by
          obtain ⟨q, hmem, hq⟩ := hp
          rcases List.mem_cons.mp hmem with hqp | hqr
          · exact absurd (hqp ▸ hq) hid
          · exact ⟨q, hqr, hq⟩
        simpa [react_cb, reactorSet, hid] using ih hp'

theorem mem_toggleList_toggleList (l : List String) (u : String)
    (hnd : l.Nodup) (x : String) :
    x ∈ toggleList (toggleList l u) u ↔ x ∈ l := by
  by_cases hu : u ∈ l
  · have h1 : toggleList l u = l.erase u := if_pos hu
    have h2 : u ∉ l.erase u := fun hc => ((hnd.mem_erase_iff).mp hc).1 rfl
    rw [h1]
    unfold toggleList
    rw [if_neg h2, List.mem_append, List.mem_singleton]
    constructor
    · rintro (hx | hx)
      · exact ((hnd.mem_erase_iff).mp hx).2
      · exact hx ▸ hu
    · intro hx
      by_cases hxu : x = u
      · exact Or.inr hxu
      · exact Or.inl ((hnd.mem_erase_iff).mpr ⟨hxu, hx⟩)
  · have h1 : toggleList l u = l ++ [u] := if_neg hu
    have h2 : u ∈ l ++ [u] := List.mem_append.mpr (Or.inr (List.mem_singleton.mpr rfl))
    rw [h1]
    unfold toggleList
    rw [if_pos h2, List.erase_append_right _ hu, List.erase_cons_head, List.append_nil]

/-! ### C7: the double toggle restores the reactor set -/

/-- C7: on a board containing a post with id `pid` whose `(pid, em)`
reactor list is duplicate-free, one `react_cb` removes `uid` when present
and adds it when absent, and a second identical `react_cb` restores the
reactor set of `(pid, em)` to exactly its original membership. -/
theorem react_cb_double_toggle (board : List Post) (pid : Nat) (em uid : String)
    (hp : ∃ p ∈ board, p.id = pid)
    (hnd : (reactorSet board pid em).Nodup) :
    (uid ∈ reactorSet board pid em →
        uid ∉ reactorSet (react_cb board pid em uid) pid em) ∧
      (uid ∉ reactorSet board pid em →
        uid ∈ reactorSet (react_cb board pid em uid) pid em) ∧
      (∀ x, x ∈ reactorSet (react_cb (react_cb board pid em uid) pid em uid) pid em ↔
        x ∈ reactorSet board pid em) := by
  obtain ⟨hone, htwo⟩ := reactorSet_react_cb board pid em uid hp
  refine ⟨?_, ?_, ?_⟩
  · intro hu
    rw [hone]
    unfold toggleList
    rw [if_pos hu]
    exact fun hc => ((hnd.mem_erase_iff).mp hc).1 rfl
  · intro hu
    rw [hone]
    unfold toggleList
    rw [if_neg hu]
    exact List.mem_append.mpr (Or.inr (List.mem_singleton.mpr rfl))
  · intro x
    rw [htwo]
    exact mem_toggleList_toggleList _ _ hnd x

/-- Sample board for the reaction witness: one post, `"9"` already reacted
with `"em"`. -/
def boardC7 : List Post := [⟨1, "hello", "A", "d", none, [("em", ["9"])]⟩]

/-- Witness for C7: toggling `"9"` on `(1, "em")` removes it, toggling
again restores membership. -/
theorem react_cb_double_toggle_witness :
    ("9" ∉ reactorSet (react_cb boardC7 1 "em" "9") 1 "em") ∧
      ("9" ∈ reactorSet (react_cb (react_cb boardC7 1 "em" "9") 1 "em" "9") 1 "em" ↔
        "9" ∈ reactorSet boardC7 1 "em") :=
  ⟨(react_cb_double_toggle boardC7 1 "em" "9" (by decide) (by decide)).1 (by decide),
    (react_cb_double_toggle boardC7 1 "em" "9" (by decide) (by decide)).2.2 "9"⟩

/-! ### Publishing announcements (`post_photo_received` / `post_skip_photo`) -/

/-- The id computation both publish handlers share:
`pid = 1; if board["posts"]: pid = max(p["id"] for p in board["posts"]) + 1`. -/
def next_pid (posts : List Post) : Nat :=
  if posts = [] then 1
  else posts.foldl (fun acc p => max acc p.id) 0 + 1

/-- The shared tail of both publish handlers: build the post record and
`board["posts"].insert(0, post)`. -/
def publish_post (board : List Post) (text author date : String)
    (photo : Option String) : List Post :=
  { id := next_pid board, text := text, author := author, date := date,
    photo := photo, reactions := [] } :: board

/-- `post_skip_photo` publishes without a photo. -/
def post_skip_photo (board : List Post) (text author date : String) : List Post :=
  publish_post board text author date none

/-- `post_photo_received` publishes with the received photo's `file_id`. -/
def post_photo_received (board : List Post) (text author date file_id : String) :
    List Post :=
  publish_post board text author date (some file_id)

theorem le_foldl_max_id (l : List Post) :
    ∀ (a : Nat), (∀ p ∈ l, p.id ≤ l.foldl (fun acc p => max acc p.id) a) ∧
      a ≤ l.foldl (fun acc p => max acc p.id) a := by
  induction l with
  | nil => exact fun a => ⟨fun p hp => absurd hp (List.not_mem_nil p), Nat.le_refl a⟩
  | cons q rest ih =>
      intro a
      refine ⟨?_, ?_⟩
      · intro p hp
        rcases List.mem_cons.mp hp with hq | hr
        · subst hq
          exact Nat.le_trans (Nat.le_max_right a p.id) (ih (max a p.id)).2
        · exact (ih (max a q.id)).1 p hr
      · exact Nat.le_trans (Nat.le_max_left a q.id) (ih (max a q.id)).2

/-! ### C8: head insertion and strictly larger fresh ids -/

/-- C8: publishing puts the freshly built post (with id `next_pid board`)
at the head of the sequence; the id is 1 on an empty board and the
running maximum plus one otherwise, and it is strictly greater than — in
particular distinct from — every existing post id. -/
theorem publish_post_spec (board : List Post) (text author date : String)
    (photo : Option String) :
    publish_post board text author date photo =
        { id := next_pid board, text := text, author := author, date := date,
          photo := photo, reactions := [] } :: board ∧
      (board = [] → next_pid board = 1) ∧
      (board ≠ [] →
        next_pid board = board.foldl (fun acc p => max acc p.id) 0 + 1) ∧
      (∀ p ∈ board, p.id < next_pid board) ∧
      (∀ p ∈ board, p.id ≠ next_pid board) := by
  refine ⟨rfl, fun hnil => by simp [next_pid, hnil], fun hne => by simp [next_pid, hne],
    ?_, ?_⟩
  · intro p hp
    have hne : board ≠ [] := by
      intro hc
      rw [hc] at hp
      exact absurd hp (List.not_mem_nil p)
    unfold next_pid
    rw [if_neg hne]
    exact Nat.lt_succ_of_le ((le_foldl_max_id board 0).1 p hp)
  · intro p hp
    have hne : board ≠ [] := by
      intro hc
      rw [hc] at hp
      exact absurd hp (List.not_mem_nil p)
    have : p.id < next_pid board := by
      unfold next_pid
      rw [if_neg hne]
      exact Nat.lt_succ_of_le ((le_foldl_max_id board 0).1 p hp)
    exact Nat.ne_of_lt this

/-- Sample board for the publish witness: one existing post with id 5. -/
def boardC8 : List Post := [⟨5, "old", "A", "d", none, []⟩]

/-- Witness for C8: on `boardC8` the next id is 6, strictly above the
existing id 5, and the new post lands at the head. -/
theorem publish_post_spec_witness :
    publish_post boardC8 "t" "B" "d2" none =
        { id := next_pid boardC8, text := "t", author := "B", date := "d2",
          photo := none, reactions := [] } :: boardC8 ∧
      (5 : Nat) < next_pid boardC8 :=
  ⟨(publish_post_spec boardC8 "t" "B" "d2" none).1,
    (publish_post_spec boardC8 "t" "B" "d2" none).2.2.2.1
      ⟨5, "old", "A", "d", none, []⟩ (by decide)⟩

end HelperBot
